import Mathlib

/-!
Shallow embedding of the Centra webhook event ingestor from
`packages/utils/src` (`createGetCentraWebhookEvents` and its helpers
`sign`, `parseNamedParametersString`, `parseRawBody`), together with
models of the JavaScript primitives the code calls
(`crypto.createHmac('sha256', …)`, `encodeURIComponent`, `String.split`,
template-literal interpolation, `JSON.parse`).

Strings are processed as `List Char`; machine words are `Nat` reduced
modulo `2 ^ 32` where the hash algorithm requires it; bytes are `Nat`
values below 256 produced with explicit `% 256`.
-/

set_option maxRecDepth 1000000

/-- Truncation to a 32-bit word: SHA-256 works on 32-bit words. -/
def w32 (n : Nat) : Nat := n % 4294967296

/-- Addition of 32-bit words. -/
def add32 (a b : Nat) : Nat := (a + b) % 4294967296

/-- Right rotation of a 32-bit word by `n` places. -/
def rotr (n x : Nat) : Nat := ((x >>> n) ||| (x <<< (32 - n))) % 4294967296

/-- Logical right shift. -/
def shr (n x : Nat) : Nat := x >>> n

/-- SHA-256 round constants (the first 32 bits of the fractional parts
of the cube roots of the first 64 primes, FIPS 180-4), written in
decimal. -/
def sha256K : List Nat :=
  [1116352408, 1899447441, 3049323471, 3921009573, 961987163,
   1508970993, 2453635748, 2870763221, 3624381080, 310598401,
   607225278, 1426881987, 1925078388, 2162078206, 2614888103,
   3248222580, 3835390401, 4022224774, 264347078, 604807628,
   770255983, 1249150122, 1555081692, 1996064986, 2554220882,
   2821834349, 2952996808, 3210313671, 3336571891, 3584528711,
   113926993, 338241895, 666307205, 773529912, 1294757372,
   1396182291, 1695183700, 1986661051, 2177026350, 2456956037,
   2730485921, 2820302411, 3259730800, 3345764771, 3516065817,
   3600352804, 4094571909, 275423344, 430227734, 506948616,
   659060556, 883997877, 958139571, 1322822218, 1537002063,
   1747873779, 1955562222, 2024104815, 2227730452, 2361852424,
   2428436474, 2756734187, 3204031479, 3329325298]

/-- SHA-256 initial hash value (FIPS 180-4), written in decimal. -/
def sha256H0 : List Nat :=
  [1779033703, 3144134277, 1013904242, 2773480762, 1359893119,
   2600822924, 528734635, 1541459225]

/-- Big-endian bytes (most significant first) of `n`, `k` bytes wide. -/
def beBytes : Nat → Nat → List Nat
  | 0, _ => []
  | k + 1, n => ((n >>> (8 * k)) % 256) :: beBytes k n

/-- One 32-bit word from four big-endian bytes. -/
def wordOfBytes (b0 b1 b2 b3 : Nat) : Nat :=
  ((b0 <<< 24) + (b1 <<< 16) + (b2 <<< 8) + b3) % 4294967296

/-- Group a padded byte stream into 32-bit big-endian words. -/
def bytesToWords : List Nat → List Nat
  | b0 :: b1 :: b2 :: b3 :: rest => wordOfBytes b0 b1 b2 b3 :: bytesToWords rest
  | _ => []

/-- Split a word list into 16-word blocks (the input length is a
multiple of 16 for padded messages; a ragged tail is dropped). -/
def wordsToBlocks (fuel : Nat) (ws : List Nat) : List (List Nat) :=
  match fuel with
  | 0 => []
  | fuel + 1 =>
    if ws = [] then []
    else ws.take 16 :: wordsToBlocks fuel (ws.drop 16)

/-- SHA-256 padding: append `0x80`, zeros, and the 64-bit big-endian
bit length so the total length is a multiple of 64 bytes. -/
def sha256Pad (msg : List Nat) : List Nat :=
  let len := msg.length
  let zeros := List.replicate ((119 - len % 64) % 64) 0
  msg ++ [0x80] ++ zeros ++ beBytes 8 (len * 8)

/-- Message-schedule extension: grow the 16 block words to 64. -/
def sha256Schedule (fuel : Nat) (ws : List Nat) : List Nat :=
  match fuel with
  | 0 => ws
  | fuel + 1 =>
    let n := ws.length
    let w (i : Nat) : Nat := ws.getD i 0
    let s0 := (rotr 7 (w (n - 15))).xor ((rotr 18 (w (n - 15))).xor (shr 3 (w (n - 15))))
    let s1 := (rotr 17 (w (n - 2))).xor ((rotr 19 (w (n - 2))).xor (shr 10 (w (n - 2))))
    sha256Schedule fuel (ws ++ [(w (n - 16) + s0 + w (n - 7) + s1) % 4294967296])

/-- One round of the SHA-256 compression function. -/
def sha256Round (st : List Nat) (kw : Nat × Nat) : List Nat :=
  match st with
  | [a, b, c, d, e, f, g, h] =>
    let S1 := (rotr 6 e).xor ((rotr 11 e).xor (rotr 25 e))
    let ch := (e.land f).xor ((e.xor 0xffffffff).land g)
    let t1 := (h + S1 + ch + kw.1 + kw.2) % 4294967296
    let S0 := (rotr 2 a).xor ((rotr 13 a).xor (rotr 22 a))
    let maj := (a.land b).xor ((a.land c).xor (b.land c))
    let t2 := (S0 + maj) % 4294967296
    [(t1 + t2) % 4294967296, a, b, c, (d + t1) % 4294967296, e, f, g]
  | other => other

/-- Process one 16-word block, updating the running hash state. -/
def sha256Block (hs : List Nat) (block : List Nat) : List Nat :=
  let ws := sha256Schedule 48 block
  let out := (sha256K.zip ws).foldl sha256Round hs
  (hs.zip out).map (fun p => (p.1 + p.2) % 4294967296)

/-- SHA-256 of a byte list, as a list of 32 bytes. -/
def sha256 (msg : List Nat) : List Nat :=
  let padded := sha256Pad msg
  let blocks := wordsToBlocks (padded.length + 1) (bytesToWords padded)
  (blocks.foldl sha256Block sha256H0).foldr (fun w acc => beBytes 4 w ++ acc) []

/-- HMAC-SHA256 (RFC 2104): block size 64 bytes; keys longer than a
block are hashed first. -/
def hmacSha256 (key msg : List Nat) : List Nat :=
  let key0 := if 64 < key.length then sha256 key else key
  let keyPadded := key0 ++ List.replicate (64 - key0.length) 0
  let ipad := keyPadded.map (fun b => b.xor 0x36)
  let opad := keyPadded.map (fun b => b.xor 0x5c)
  sha256 (opad ++ sha256 (ipad ++ msg))

/-- Lowercase hexadecimal digit (`0`–`9`, `a`–`f`) for `n < 16`. -/
def hexCharLower (n : Nat) : Char :=
  Char.ofNat (if n < 10 then 48 + n else 87 + n)

/-- Uppercase hexadecimal digit (`0`–`9`, `A`–`F`) for `n < 16`;
`encodeURIComponent` emits uppercase escapes. -/
def hexCharUpper (n : Nat) : Char :=
  Char.ofNat (if n < 10 then 48 + n else 55 + n)

/-- Lowercase hex encoding of a byte list, as Node's
`hmac.digest('hex')` produces. -/
def bytesToHex (bs : List Nat) : List Char :=
  bs.foldr (fun b acc => hexCharLower (b / 16 % 16) :: hexCharLower (b % 16) :: acc) []

/-- UTF-8 bytes of one character. -/
def utf8Char (c : Char) : List Nat :=
  let n := c.toNat
  if n < 0x80 then [n]
  else if n < 0x800 then [0xc0 + n / 64, 0x80 + n % 64]
  else if n < 0x10000 then [0xe0 + n / 4096, 0x80 + n / 64 % 64, 0x80 + n % 64]
  else [0xf0 + n / 262144, 0x80 + n / 4096 % 64, 0x80 + n / 64 % 64, 0x80 + n % 64]

/-- UTF-8 bytes of a string. -/
def utf8 (s : String) : List Nat :=
  s.data.foldr (fun c acc => utf8Char c ++ acc) []

/-- Model of the source's `sign`: HMAC-SHA256 of `dataString` keyed by
`secret` (Node `crypto.createHmac('sha256', secret)`), hex-encoded.

```
const sign = (secret: string, dataString: string) => {
  const hmac = crypto.createHmac('sha256', secret)
  hmac.update(dataString)
  return hmac.digest('hex')
}
``` -/
def sign (secret dataString : String) : String :=
  String.mk (bytesToHex (hmacSha256 (utf8 secret) (utf8 dataString)))

/-- Characters `encodeURIComponent` leaves unescaped:
`A–Z a–z 0–9 - _ . ! ~ * ' ( )` (ECMA-262). The argument is the byte
value; every byte ≥ 0x80 is escaped. -/
def uriUnreserved (n : Nat) : Bool :=
  (48 ≤ n && n ≤ 57) || (65 ≤ n && n ≤ 90) || (97 ≤ n && n ≤ 122) ||
  n = 45 || n = 95 || n = 46 || n = 33 || n = 126 || n = 42 || n = 39 || n = 40 || n = 41

/-- Model of the JavaScript builtin `encodeURIComponent`: percent-encode
every UTF-8 byte outside the unreserved set, uppercase hex. -/
def encodeURIComponent (s : String) : String :=
  String.mk ((utf8 s).foldr
    (fun b acc =>
      if uriUnreserved b then Char.ofNat b :: acc
      else '%' :: hexCharUpper (b / 16 % 16) :: hexCharUpper (b % 16) :: acc)
    [])

/-- JavaScript `String.prototype.split` with a single-character
separator: split on every occurrence, keeping empty segments, so the
result always has one more segment than there are separators and the
empty string splits to `[""]`. -/
def jsSplit (sep : Char) : List Char → List (List Char)
  | [] => [[]]
  | c :: rest =>
    if c = sep then [] :: jsSplit sep rest
    else
      match jsSplit sep rest with
      | [] => [[c]]
      | s :: ss => (c :: s) :: ss

/-- Model of the source's `parseNamedParametersString`: split the input
on `,`; for each pair, split on every `=` and destructure the first two
segments as `[key, value]` (so the value of `k=a=b` is `a`, the text
between the first and second `=`, and a pair with no `=` has an
`undefined` value, modelled as `none`); drop pairs whose key is falsy
(the empty string); accumulate with object-spread semantics, kept here
as an ordered binding list whose later entries override earlier ones.

```
const parseNamedParametersString = (input: string): Record<string, string> => {
  return input.split(',').reduce((acc, pair) => {
    const [key, value] = pair.split('=')
    if (!key) { return acc }
    return { ...acc, [key]: value }
  }, {})
}
```

The `reduce` callback is named `paramStep` here so proofs can refer to
it. -/
def paramStep (acc : List (String × Option String)) (pair : List Char) :
    List (String × Option String) :=
  let parts := jsSplit '=' pair
  let key := parts.headD []
  if key = [] then acc
  else acc ++ [(String.mk key, (parts[1]?).map String.mk)]

/-- The fold of `paramStep` over the comma-split segments; see the doc
comment of `paramStep` for the source being modelled. -/
def parseNamedParametersString (input : String) : List (String × Option String) :=
  (jsSplit ',' input.data).foldl paramStep []

/-- JS property read on an object built by repeated spread updates: the
last binding for the key wins; a missing key reads as `undefined`
(`none`), as does a key explicitly bound to `undefined`. -/
def recordGet (m : List (String × Option String)) (k : String) : Option String :=
  match m.reverse.find? (fun p => p.1 = k) with
  | some p => p.2
  | none => none

/-- JS template-literal interpolation of a string-or-`undefined` value:
`undefined` interpolates as the literal text `undefined`. -/
def jsInterp : Option String → String
  | some s => s
  | none => "undefined"

/-- JS truthiness of a `string | null | undefined` value: `null`,
`undefined` and the empty string are falsy. -/
def strTruthy : Option String → Bool
  | some s => s != ""
  | none => false

/-- The JavaScript values an adapter's `getRawBody` may produce and that
`JSON.parse` may return. JSON numbers are kept as their raw source
token, which is all the ingestor ever needs (it never computes with
them). -/
inductive JsValue where
  | undefined
  | null
  | boolean (b : Bool)
  | number (raw : String)
  | string (s : String)
  | array (elements : List JsValue)
  | object (fields : List (String × JsValue))

/-- Modelled from the spec: `isObject` is imported from
`@noaignite/utils`, whose source is not in the excerpt; per the spec the
raw body must be "an object-like structure", so `isObject` holds exactly
of object values. -/
def isObject : JsValue → Bool
  | .object _ => true
  | _ => false

/-- Field read on a JS object (`'payload' in rawBody` together with
`rawBody.payload`). -/
def jsField (fields : List (String × JsValue)) (k : String) : Option JsValue :=
  (fields.find? (fun p => p.1 = k)).map (fun p => p.2)

/-- Model of the source's `parseRawBody`: the body passes when it is
truthy, `isObject` holds, and it carries a field `payload` of string
type. Object values are always truthy in JS, so the truthiness guard
adds nothing beyond `isObject`. The source returns the whole validated
body, of which only the `payload` field is ever read afterwards, so the
model returns that field.

```
const parseRawBody = (rawBody: unknown): { payload: string } | null => {
  if (rawBody && isObject(rawBody) && 'payload' in rawBody && typeof rawBody.payload === 'string') {
    return rawBody as { payload: string }
  }
  return null
}
``` -/
def parseRawBody (rawBody : JsValue) : Option String :=
  match rawBody with
  | .object fields =>
    if isObject (.object fields) then
      match jsField fields "payload" with
      | some (.string s) => some s
      | _ => none
    else none
  | _ => none

/-- Skip JSON whitespace (space, tab, line feed, carriage return). -/
def jsonWs : List Char → List Char
  | c :: rest =>
    if c = ' ' || c = '\t' || c = '\n' || c = '\r' then jsonWs rest
    else c :: rest
  | [] => []

/-- Value of a hexadecimal digit, if any. -/
def jsonHexVal (c : Char) : Option Nat :=
  let n := c.toNat
  if 48 ≤ n && n ≤ 57 then some (n - 48)
  else if 65 ≤ n && n ≤ 70 then some (n - 55)
  else if 97 ≤ n && n ≤ 102 then some (n - 87)
  else none

/-- Lex the remainder of a JSON string literal (the opening quote
already consumed): returns the decoded content and the rest of the
input. Raw control characters are rejected; the escapes are those of the
JSON grammar. -/
def jsonString : Nat → List Char → Except String (List Char × List Char)
  | 0, _ => .error "SyntaxError: fuel exhausted"
  | _, [] => .error "SyntaxError: unterminated string in JSON"
  | fuel + 1, c :: rest =>
    if c = '"' then .ok ([], rest)
    else if c = '\\' then
      match rest with
      | [] => .error "SyntaxError: bad escape in JSON"
      | e :: rest2 =>
        if e = 'u' then
          match rest2 with
          | h1 :: h2 :: h3 :: h4 :: rest3 =>
            match jsonHexVal h1, jsonHexVal h2, jsonHexVal h3, jsonHexVal h4 with
            | some a, some b, some cc, some d =>
              match jsonString fuel rest3 with
              | .ok (s, r) => .ok (Char.ofNat (a * 4096 + b * 256 + cc * 16 + d) :: s, r)
              | .error msg => .error msg
            | _, _, _, _ => .error "SyntaxError: bad unicode escape in JSON"
          | _ => .error "SyntaxError: bad unicode escape in JSON"
        else
          match
            (if e = '"' then some '"'
             else if e = '\\' then some '\\'
             else if e = '/' then some '/'
             else if e = 'b' then some (Char.ofNat 8)
             else if e = 'f' then some (Char.ofNat 12)
             else if e = 'n' then some '\n'
             else if e = 'r' then some '\r'
             else if e = 't' then some '\t'
             else none) with
          | some d =>
            match jsonString fuel rest2 with
            | .ok (s, r) => .ok (d :: s, r)
            | .error msg => .error msg
          | none => .error "SyntaxError: bad escape in JSON"
    else if c.toNat < 32 then .error "SyntaxError: bad control character in JSON"
    else
      match jsonString fuel rest with
      | .ok (s, r) => .ok (c :: s, r)
      | .error msg => .error msg

/-- Longest prefix of decimal digits, and the rest. -/
def jsonDigits : List Char → List Char × List Char
  | c :: rest =>
    if 48 ≤ c.toNat && c.toNat ≤ 57 then
      let (ds, r) := jsonDigits rest
      (c :: ds, r)
    else ([], c :: rest)
  | [] => ([], [])

/-- Optional fraction part `.digits` of a JSON number. -/
def jsonFrac (cs : List Char) : Except String (List Char × List Char) :=
  match cs with
  | '.' :: r =>
    match jsonDigits r with
    | ([], _) => .error "SyntaxError: bad number in JSON"
    | (ds, r2) => .ok ('.' :: ds, r2)
  | _ => .ok ([], cs)

/-- Optional exponent part `(e|E)(+|-)?digits` of a JSON number. -/
def jsonExp (cs : List Char) : Except String (List Char × List Char) :=
  match cs with
  | e :: r =>
    if e = 'e' || e = 'E' then
      match r with
      | '+' :: r2 =>
        (match jsonDigits r2 with
        | ([], _) => .error "SyntaxError: bad number in JSON"
        | (ds, r3) => .ok (e :: '+' :: ds, r3))
      | '-' :: r2 =>
        (match jsonDigits r2 with
        | ([], _) => .error "SyntaxError: bad number in JSON"
        | (ds, r3) => .ok (e :: '-' :: ds, r3))
      | _ =>
        (match jsonDigits r with
        | ([], _) => .error "SyntaxError: bad number in JSON"
        | (ds, r3) => .ok (e :: ds, r3))
    else .ok ([], e :: r)
  | [] => .ok ([], [])

/-- Lex a JSON number token per the JSON grammar (optional minus; `0` or
a nonzero-led digit run; optional fraction; optional exponent), keeping
the raw token text. -/
def jsonNumber (cs : List Char) : Except String (List Char × List Char) :=
  let (neg, cs1) :=
    match cs with
    | '-' :: rest => ([('-' : Char)], rest)
    | _ => (([] : List Char), cs)
  match cs1 with
  | c :: rest =>
    if c = '0' then
      match jsonFrac rest with
      | .error m => .error m
      | .ok (frac, cs3) =>
        match jsonExp cs3 with
        | .error m => .error m
        | .ok (ex, cs4) => .ok (neg ++ [c] ++ frac ++ ex, cs4)
    else if 49 ≤ c.toNat && c.toNat ≤ 57 then
      match jsonDigits rest with
      | (ds, cs2) =>
        match jsonFrac cs2 with
        | .error m => .error m
        | .ok (frac, cs3) =>
          match jsonExp cs3 with
          | .error m => .error m
          | .ok (ex, cs4) => .ok (neg ++ (c :: ds) ++ frac ++ ex, cs4)
    else .error "SyntaxError: bad number in JSON"
  | [] => .error "SyntaxError: bad number in JSON"

mutual

/-- Parse one JSON value (leading whitespace already skipped). -/
def jsonValue : Nat → List Char → Except String (JsValue × List Char)
  | 0, _ => .error "SyntaxError: fuel exhausted"
  | fuel + 1, cs =>
    match cs with
    | [] => .error "SyntaxError: unexpected end of JSON input"
    | c :: rest =>
      if c = '"' then
        (match jsonString (fuel + 1) rest with
        | .ok (s, r) => .ok (.string (String.mk s), r)
        | .error msg => .error msg)
      else if c = '[' then
        (match jsonWs rest with
        | ']' :: r => .ok (.array [], r)
        | cs2 => jsonArrayItems fuel cs2 [])
      else if c = '{' then
        (match jsonWs rest with
        | '}' :: r => .ok (.object [], r)
        | cs2 => jsonObjectItems fuel cs2 [])
      else
        match cs with
        | 't' :: 'r' :: 'u' :: 'e' :: r => .ok (.boolean true, r)
        | 'f' :: 'a' :: 'l' :: 's' :: 'e' :: r => .ok (.boolean false, r)
        | 'n' :: 'u' :: 'l' :: 'l' :: r => .ok (.null, r)
        | _ =>
          match jsonNumber cs with
          | .ok (tok, r) => .ok (.number (String.mk tok), r)
          | .error msg => .error msg

/-- Parse the items of a JSON array (positioned at a value). -/
def jsonArrayItems : Nat → List Char → List JsValue → Except String (JsValue × List Char)
  | 0, _, _ => .error "SyntaxError: fuel exhausted"
  | fuel + 1, cs, acc =>
    match jsonValue fuel cs with
    | .error msg => .error msg
    | .ok (v, r) =>
      match jsonWs r with
      | ',' :: r2 => jsonArrayItems fuel (jsonWs r2) (acc ++ [v])
      | ']' :: r2 => .ok (.array (acc ++ [v]), r2)
      | _ => .error "SyntaxError: expected comma or bracket in JSON array"

/-- Parse the members of a JSON object (positioned at a key). -/
def jsonObjectItems : Nat → List Char → List (String × JsValue) →
    Except String (JsValue × List Char)
  | 0, _, _ => .error "SyntaxError: fuel exhausted"
  | fuel + 1, cs, acc =>
    match cs with
    | '"' :: rest =>
      match jsonString (fuel + 1) rest with
      | .error msg => .error msg
      | .ok (k, r) =>
        match jsonWs r with
        | ':' :: r2 =>
          match jsonValue fuel (jsonWs r2) with
          | .error msg => .error msg
          | .ok (v, r3) =>
            match jsonWs r3 with
            | ',' :: r4 => jsonObjectItems fuel (jsonWs r4) (acc ++ [(String.mk k, v)])
            | '}' :: r4 => .ok (.object (acc ++ [(String.mk k, v)]), r4)
            | _ => .error "SyntaxError: expected comma or brace in JSON object"
        | _ => .error "SyntaxError: expected colon in JSON object"
    | _ => .error "SyntaxError: expected string key in JSON object"

end

/-- Model of the JavaScript builtin `JSON.parse`: parse the whole input
as one JSON value; on malformed input it throws a `SyntaxError`,
modelled as the `Except.error` case. -/
def jsonParse (s : String) : Except String JsValue :=
  match jsonValue (s.data.length + 1) (jsonWs s.data) with
  | .ok (v, rest) =>
    if jsonWs rest = [] then .ok v
    else .error "SyntaxError: unexpected trailing content in JSON"
  | .error msg => .error msg

/-- The adapter contract: framework-specific accessors for the request
method check, a header by name (`string | null | undefined` modelled as
`Option String`), and the raw body. The adapter functions are modelled
as total (the claims assume adapters that do not throw); `getRawBody`
may be asynchronous in the source, but the ingestor awaits it before
continuing, so the suspension is invisible to the result. -/
structure WebhookAdapter (Req : Type) where
  isRequestMethodPost : Option (Req → Bool)
  getHeader : Req → String → Option String
  getRawBody : Req → JsValue

/-- The ingestor configuration: an adapter and an optional secret. -/
structure CreateGetCentraWebhookEventsConfig (Req : Type) where
  adapter : WebhookAdapter Req
  secret : Option String

/-- The ingestor outcome `CentraWebhookEventsResults`: `errors m` is the
single-element error list `[ (message: m) ]`; `events v` is the success
pair `[undefined, payloadParsed]`. -/
inductive CentraWebhookEventsResults where
  | errors (message : String)
  | events (payload : JsValue)

/-- Final step of the ingestor: `JSON.parse(body.payload)` and the
success pair. The source calls `JSON.parse` with no exception handler,
so a parse failure propagates as the thrown `SyntaxError`
(`Except.error`). -/
def decodeEvents (payload : String) : Except String CentraWebhookEventsResults :=
  (jsonParse payload).map CentraWebhookEventsResults.events

/-- Model of the source's `createGetCentraWebhookEvents`, applied to a
request: the function the source returns, with the `async` wrapper
erased (the one `await` is on `getRawBody`, modelled as a total call)
and a thrown exception modelled as `Except.error`.

```
return async (request: TRequest): Promise<CentraWebhookEventsResults> => {
  if (isRequestMethodPost && !isRequestMethodPost(request)) {
    return [{ message: 'Invalid request method' }]
  }
  const rawBody = await getRawBody(request)
  const body = parseRawBody(rawBody)
  if (!body) { return [{ message: 'Invalid request body' }] }
  if (secret) {
    const signature = getHeader(request, 'x-centra-signature')
    if (!signature) { return [{ message: 'No signature' }] }
    const parameters = parseNamedParametersString(signature)
    if (sign(secret, parameters.t + '.payload=' + encodeURIComponent(body.payload)) !== parameters.v1) {
      console.error('Invalid signature')
      return [{ message: 'Invalid signature' }]
    }
  }
  const payloadParsed = JSON.parse(body.payload)
  return [undefined, payloadParsed]
}
```

The `console.error` diagnostic is a side effect with no bearing on the
returned value and is not modelled. `if (secret)` is a JS truthiness
test, so an empty-string secret skips verification exactly like an
absent one; likewise `if (!signature)` treats an empty-string header
like an absent one. -/
def createGetCentraWebhookEvents {Req : Type}
    (config : CreateGetCentraWebhookEventsConfig Req) (request : Req) :
    Except String CentraWebhookEventsResults :=
  let adapter := config.adapter
  let methodRejected :=
    match adapter.isRequestMethodPost with
    | some p => !(p request)
    | none => false
  if methodRejected then .ok (.errors "Invalid request method")
  else
    let rawBody := adapter.getRawBody request
    match parseRawBody rawBody with
    | none => .ok (.errors "Invalid request body")
    | some payload =>
      match config.secret with
      | some s =>
        if s = "" then decodeEvents payload
        else
          let signature := adapter.getHeader request "x-centra-signature"
          if !strTruthy signature then .ok (.errors "No signature")
          else
            let parameters := parseNamedParametersString (signature.getD "")
            if some (sign s
                  (jsInterp (recordGet parameters "t") ++ ".payload=" ++
                    encodeURIComponent payload)) ≠
                recordGet parameters "v1" then
              .ok (.errors "Invalid signature")
            else decodeEvents payload
      | none => decodeEvents payload

/-- The spec's closed error taxonomy. The spec names the members of the
closed message set in CamelCase (`InvalidRequestMethod`, …); the
`message` field below is the literal string the source stores in the
returned error record for each member. -/
inductive ErrorKind where
  | InvalidRequestMethod
  | InvalidRequestBody
  | NoSignature
  | InvalidSignature

/-- The literal message string the source uses for each member of the
error taxonomy. -/
def ErrorKind.message : ErrorKind → String
  | .InvalidRequestMethod => "Invalid request method"
  | .InvalidRequestBody => "Invalid request body"
  | .NoSignature => "No signature"
  | .InvalidSignature => "Invalid signature"

/-- Key of one comma-split segment: the text before the first `=`. -/
def keyOf (pair : List Char) : List Char :=
  (jsSplit '=' pair).headD []

/-- Value of one comma-split segment: the text between the first and
second `=` (`none` when the segment has no `=`). -/
def valOf (pair : List Char) : Option String :=
  ((jsSplit '=' pair)[1]?).map String.mk

/-- The binding a single comma-split segment contributes: dropped when
its key is empty. -/
def pairBind (pair : List Char) : Option (String × Option String) :=
  if keyOf pair = [] then none
  else some (String.mk (keyOf pair), valOf pair)

/-- Reference reading of a header for one key: the value of the final
comma-split segment whose key is `k`, skipping nothing else. Stated by
the claims as what repeated keys resolve to. -/
def lastPairValue (input : String) (k : String) : Option String :=
  (((jsSplit ',' input.data).filter
      (fun pair => String.mk (keyOf pair) = k)).getLast?).bind valOf


/-! ## Library lemmas about the split, parameter and record models -/

theorem jsSplit_ne_nil (sep : Char) (l : List Char) : jsSplit sep l ≠ [] := by
  induction l with
  | nil => simp [jsSplit]
  | cons c rest ih =>
    simp only [jsSplit]
    split
    · simp
    · split <;> simp

theorem jsSplit_append (sep : Char) (a b : List Char) :
    jsSplit sep (a ++ sep :: b) = jsSplit sep a ++ jsSplit sep b := by
  induction a with
  | nil => simp [jsSplit]
  | cons c a ih =>
    by_cases hc : c = sep
    · subst hc
      simp [jsSplit, ih]
    · cases h : jsSplit sep a with
      | nil => exact absurd h (jsSplit_ne_nil sep a)
      | cons s ss =>
        simp only [List.cons_append, jsSplit, hc, if_false, List.append_eq]
        rw [ih, h]
        simp

theorem jsSplit_of_not_mem (sep : Char) (l : List Char) (h : sep ∉ l) :
    jsSplit sep l = [l] := by
  induction l with
  | nil => simp [jsSplit]
  | cons c rest ih =>
    have hc : ¬ c = sep := by
      intro hEq
      exact h (hEq ▸ List.mem_cons_self c rest)
    have hr : sep ∉ rest := fun hm => h (List.mem_cons_of_mem _ hm)
    simp [jsSplit, hc, ih hr]

theorem foldl_paramStep_append (segs : List (List Char))
    (acc : List (String × Option String)) :
    segs.foldl paramStep acc = acc ++ segs.foldl paramStep [] := by
  induction segs generalizing acc with
  | nil => simp
  | cons s segs ih =>
    have hstep : ∀ a, paramStep a s = a ++ paramStep [] s := by
      intro a
      simp only [paramStep]
      split <;> simp
    simp only [List.foldl_cons]
    rw [ih (paramStep acc s), ih (paramStep [] s), hstep acc]
    simp

theorem foldl_paramStep_eq_filterMap (segs : List (List Char)) :
    segs.foldl paramStep [] = segs.filterMap pairBind := by
  induction segs with
  | nil => simp
  | cons s segs ih =>
    simp only [List.foldl_cons, List.filterMap_cons]
    rw [foldl_paramStep_append segs (paramStep [] s), ih]
    by_cases hk : (jsSplit '=' s).head?.getD [] = []
    · simp [paramStep, pairBind, keyOf, valOf, hk]
    · simp [paramStep, pairBind, keyOf, valOf, hk]

theorem parseNamed_eq_filterMap (input : String) :
    parseNamedParametersString input = (jsSplit ',' input.data).filterMap pairBind := by
  rw [parseNamedParametersString, foldl_paramStep_eq_filterMap]

theorem recordGet_append_single (m : List (String × Option String)) (k1 : String)
    (v : Option String) (k : String) :
    recordGet (m ++ [(k1, v)]) k = if k1 = k then v else recordGet m k := by
  have hrev : (m ++ [(k1, v)]).reverse = (k1, v) :: m.reverse := by simp
  by_cases h : k1 = k
  · simp [recordGet, hrev, List.find?, h]
  · simp [recordGet, hrev, List.find?, h]

theorem recordGet_append_not_mem (m1 m2 : List (String × Option String)) (k : String)
    (h : ∀ p ∈ m2, p.1 ≠ k) :
    recordGet (m1 ++ m2) k = recordGet m1 k := by
  induction m2 generalizing m1 with
  | nil => simp
  | cons x m2 ih =>
    have hx : x.1 ≠ k := h x (List.mem_cons_self x m2)
    have h2 : ∀ p ∈ m2, p.1 ≠ k := fun p hp => h p (List.mem_cons_of_mem _ hp)
    have hsplit : m1 ++ x :: m2 = (m1 ++ [x]) ++ m2 := by simp
    rw [hsplit, ih (m1 ++ [x]) h2]
    rcases x with ⟨k1, v⟩
    rw [recordGet_append_single]
    simp only at hx
    simp [hx]

theorem hexCharLower_ne_sep : ∀ n < 16, hexCharLower n ≠ ',' ∧ hexCharLower n ≠ '=' := by
  decide

theorem bytesToHex_sep_not_mem (bs : List Nat) :
    ',' ∉ bytesToHex bs ∧ '=' ∉ bytesToHex bs := by
  induction bs with
  | nil => simp [bytesToHex]
  | cons b bs ih =>
    have h1 := hexCharLower_ne_sep (b / 16 % 16) (Nat.mod_lt _ (by norm_num))
    have h2 := hexCharLower_ne_sep (b % 16) (Nat.mod_lt _ (by norm_num))
    have hcons : bytesToHex (b :: bs) =
        hexCharLower (b / 16 % 16) :: hexCharLower (b % 16) :: bytesToHex bs := rfl
    rw [hcons]
    constructor
    · intro hm
      rcases List.mem_cons.mp hm with hEq | hm2
      · exact h1.1 hEq.symm
      · rcases List.mem_cons.mp hm2 with hEq | hm3
        · exact h2.1 hEq.symm
        · exact ih.1 hm3
    · intro hm
      rcases List.mem_cons.mp hm with hEq | hm2
      · exact h1.2 hEq.symm
      · rcases List.mem_cons.mp hm2 with hEq | hm3
        · exact h2.2 hEq.symm
        · exact ih.2 hm3

theorem sign_sep_not_mem (secret dataString : String) :
    ',' ∉ (sign secret dataString).data ∧ '=' ∉ (sign secret dataString).data :=
  bytesToHex_sep_not_mem (hmacSha256 (utf8 secret) (utf8 dataString))

theorem parseNamed_two_pairs (T H : List Char)
    (hT1 : ',' ∉ T) (hT2 : '=' ∉ T) (hH1 : ',' ∉ H) (hH2 : '=' ∉ H) :
    parseNamedParametersString ⟨('t' :: '=' :: T) ++ ',' :: ('v' :: '1' :: '=' :: H)⟩ =
      [("t", some (String.mk T)), ("v1", some (String.mk H))] := by
  have hsegs : jsSplit ',' (('t' :: '=' :: T) ++ ',' :: ('v' :: '1' :: '=' :: H)) =
      [('t' :: '=' :: T), ('v' :: '1' :: '=' :: H)] := by
    rw [jsSplit_append]
    rw [jsSplit_of_not_mem ',' ('t' :: '=' :: T) (by simp [hT1])]
    rw [jsSplit_of_not_mem ',' ('v' :: '1' :: '=' :: H) (by simp [hH1])]
    rfl
  have hpartT : jsSplit '=' ('t' :: '=' :: T) = [['t'], T] := by
    have := jsSplit_append '=' ['t'] T
    simp only [List.cons_append, List.nil_append] at this
    rw [this, jsSplit_of_not_mem '=' ['t'] (by simp), jsSplit_of_not_mem '=' T hT2]
    rfl
  have hpartH : jsSplit '=' ('v' :: '1' :: '=' :: H) = [['v', '1'], H] := by
    have := jsSplit_append '=' ['v', '1'] H
    simp only [List.cons_append, List.nil_append] at this
    rw [this, jsSplit_of_not_mem '=' ['v', '1'] (by simp), jsSplit_of_not_mem '=' H hH2]
    rfl
  show (jsSplit ',' (('t' :: '=' :: T) ++ ',' :: ('v' :: '1' :: '=' :: H))).foldl paramStep [] = _
  rw [hsegs]
  simp [paramStep, hpartT, hpartH]

/-! ## Claim theorems -/

/-- C5: for every configuration whose adapter defines
`isRequestMethodPost` and every request on which that predicate returns
false, the ingestor yields exactly the single-element
`InvalidRequestMethod` error list and short-circuits before body or
signature inspection: the result does not depend on the `getRawBody` and
`getHeader` adapter functions. -/
theorem c5_method_short_circuit {Req : Type} (p : Req → Bool)
    (getH1 getH2 : Req → String → Option String) (getB1 getB2 : Req → JsValue)
    (secret : Option String) (request : Req) (hp : p request = false) :
    createGetCentraWebhookEvents ⟨⟨some p, getH1, getB1⟩, secret⟩ request =
        Except.ok (.errors ErrorKind.InvalidRequestMethod.message) ∧
    createGetCentraWebhookEvents ⟨⟨some p, getH1, getB1⟩, secret⟩ request =
      createGetCentraWebhookEvents ⟨⟨some p, getH2, getB2⟩, secret⟩ request := by
  constructor <;> simp [createGetCentraWebhookEvents, hp, ErrorKind.message]

/-- Witness for C5 at a concrete rejecting predicate. -/
theorem c5_method_short_circuit_witness :
    (fun _ : Unit => false) () = false ∧
    createGetCentraWebhookEvents
        ⟨⟨some (fun _ => false), (fun _ _ => none), fun _ => JsValue.null⟩, none⟩ () =
      Except.ok (.errors ErrorKind.InvalidRequestMethod.message) :=
  ⟨rfl,
    (c5_method_short_circuit (fun _ => false) (fun _ _ => none) (fun _ _ => some "x")
      (fun _ => JsValue.null) (fun _ => JsValue.string "y") none () rfl).1⟩

/-- C7: for all configurations with a (nonempty, hence truthy) secret,
a request that passes the method check and carries a well-formed body
but whose `x-centra-signature` header is absent (the adapter's
`getHeader` returns the absent marker) yields exactly the single-element
`NoSignature` error list. -/
theorem c7_missing_header {Req : Type} (m : Option (Req → Bool))
    (getH : Req → String → Option String) (getB : Req → JsValue)
    (s : String) (request : Req) (P : String)
    (hm : ∀ q, m = some q → q request = true)
    (hs : s ≠ "")
    (hb : parseRawBody (getB request) = some P)
    (hh : getH request "x-centra-signature" = none) :
    createGetCentraWebhookEvents ⟨⟨m, getH, getB⟩, some s⟩ request =
      Except.ok (.errors ErrorKind.NoSignature.message) := by
  cases m with
  | none => simp [createGetCentraWebhookEvents, hb, hs, hh, strTruthy, ErrorKind.message]
  | some q =>
    have hq := hm q rfl
    simp [createGetCentraWebhookEvents, hq, hb, hs, hh, strTruthy, ErrorKind.message]

/-- Witness for C7 at a concrete configuration and request. -/
theorem c7_missing_header_witness :
    parseRawBody (JsValue.object [("payload", JsValue.string "[]")]) = some "[]" ∧
    createGetCentraWebhookEvents
        ⟨⟨none, (fun _ _ => none),
          fun _ => JsValue.object [("payload", JsValue.string "[]")]⟩, some "whsec"⟩ () =
      Except.ok (.errors ErrorKind.NoSignature.message) :=
  ⟨rfl,
    c7_missing_header none (fun _ _ => none)
      (fun _ => JsValue.object [("payload", JsValue.string "[]")]) "whsec" () "[]"
      (fun _ h => nomatch h) (by decide) rfl rfl⟩

/-- C8: for every configuration (with or without a secret) and every
request passing any configured method check, if the adapter-supplied raw
body is not an object carrying a string `payload` field, the ingestor
yields exactly the single-element `InvalidRequestBody` error list,
before any signature inspection: the result does not depend on the
`getHeader` adapter function. -/
theorem c8_invalid_body {Req : Type} (m : Option (Req → Bool))
    (getH1 getH2 : Req → String → Option String) (getB : Req → JsValue)
    (secret : Option String) (request : Req)
    (hm : ∀ q, m = some q → q request = true)
    (hb : parseRawBody (getB request) = none) :
    createGetCentraWebhookEvents ⟨⟨m, getH1, getB⟩, secret⟩ request =
        Except.ok (.errors ErrorKind.InvalidRequestBody.message) ∧
    createGetCentraWebhookEvents ⟨⟨m, getH1, getB⟩, secret⟩ request =
      createGetCentraWebhookEvents ⟨⟨m, getH2, getB⟩, secret⟩ request := by
  cases m with
  | none => constructor <;> simp [createGetCentraWebhookEvents, hb, ErrorKind.message]
  | some q =>
    have hq := hm q rfl
    constructor <;> simp [createGetCentraWebhookEvents, hq, hb, ErrorKind.message]

/-- Witness for C8 at a concrete body lacking a string `payload`. -/
theorem c8_invalid_body_witness :
    parseRawBody (JsValue.object [("other", JsValue.string "x")]) = none ∧
    createGetCentraWebhookEvents
        ⟨⟨none, (fun _ _ => some "t=1,v1=2"),
          fun _ => JsValue.object [("other", JsValue.string "x")]⟩, some "whsec"⟩ () =
      Except.ok (.errors ErrorKind.InvalidRequestBody.message) :=
  ⟨rfl,
    (c8_invalid_body none (fun _ _ => some "t=1,v1=2") (fun _ _ => none)
      (fun _ => JsValue.object [("other", JsValue.string "x")]) (some "whsec") ()
      (fun _ h => nomatch h) rfl).1⟩

/-- C4: for every configuration with no secret and every request that
passes any configured method check and whose raw body is an object
carrying a string `payload` field, the ingestor returns the value of
`JSON.parse(payload)` as the success pair, regardless of what the
`getHeader` adapter function returns for any header: the signature
header is never consulted. -/
theorem c4_no_secret_skips_verification {Req : Type} (m : Option (Req → Bool))
    (getH1 getH2 : Req → String → Option String) (getB : Req → JsValue)
    (request : Req) (P : String)
    (hm : ∀ q, m = some q → q request = true)
    (hb : parseRawBody (getB request) = some P) :
    createGetCentraWebhookEvents ⟨⟨m, getH1, getB⟩, none⟩ request =
        (jsonParse P).map CentraWebhookEventsResults.events ∧
    createGetCentraWebhookEvents ⟨⟨m, getH1, getB⟩, none⟩ request =
      createGetCentraWebhookEvents ⟨⟨m, getH2, getB⟩, none⟩ request := by
  cases m with
  | none => constructor <;> simp [createGetCentraWebhookEvents, hb, decodeEvents]
  | some q =>
    have hq := hm q rfl
    constructor <;> simp [createGetCentraWebhookEvents, hq, hb, decodeEvents]

/-- Witness for C4 at a concrete secretless configuration; the header
content is an arbitrary invalid signature and is ignored. -/
theorem c4_no_secret_skips_verification_witness :
    parseRawBody (JsValue.object [("payload", JsValue.string "[]")]) = some "[]" ∧
    createGetCentraWebhookEvents
        ⟨⟨none, (fun _ _ => some "t=1,v1=bogus"),
          fun _ => JsValue.object [("payload", JsValue.string "[]")]⟩, none⟩ () =
      (jsonParse "[]").map CentraWebhookEventsResults.events :=
  ⟨rfl,
    (c4_no_secret_skips_verification none (fun _ _ => some "t=1,v1=bogus") (fun _ _ => none)
      (fun _ => JsValue.object [("payload", JsValue.string "[]")]) () "[]"
      (fun _ h => nomatch h) rfl).1⟩

/-- C6: for all configurations with a (nonempty, hence truthy) secret,
a request passing the method and body checks whose `x-centra-signature`
header is present but whose `v1` parameter does not equal, byte for
byte, the hexadecimal HMAC-SHA256 of the signed string
`"{t}.payload={encodeURIComponent(payload)}"` keyed by the secret
(where `{t}` is the parsed `t` parameter, interpolated JS-style)
yields exactly the single-element `InvalidSignature` error list. The
diagnostic `console.error` on this path is a side effect with no bearing
on the returned value and is not modelled. -/
theorem c6_invalid_signature {Req : Type} (m : Option (Req → Bool))
    (getH : Req → String → Option String) (getB : Req → JsValue)
    (s : String) (request : Req) (P hdr : String)
    (hm : ∀ q, m = some q → q request = true)
    (hs : s ≠ "")
    (hb : parseRawBody (getB request) = some P)
    (hh : getH request "x-centra-signature" = some hdr)
    (hhdr : hdr ≠ "")
    (hmismatch :
      some (sign s
          (jsInterp (recordGet (parseNamedParametersString hdr) "t") ++ ".payload=" ++
            encodeURIComponent P)) ≠
        recordGet (parseNamedParametersString hdr) "v1") :
    createGetCentraWebhookEvents ⟨⟨m, getH, getB⟩, some s⟩ request =
      Except.ok (.errors ErrorKind.InvalidSignature.message) := by
  cases m with
  | none =>
    simp [createGetCentraWebhookEvents, hb, hs, hh, hhdr, strTruthy, hmismatch,
      ErrorKind.message]
  | some q =>
    have hq := hm q rfl
    simp [createGetCentraWebhookEvents, hq, hb, hs, hh, hhdr, strTruthy, hmismatch,
      ErrorKind.message]

/-- Witness for C6 at a concrete configuration whose header carries a
`v1` value that is not the expected digest. -/
theorem c6_invalid_signature_witness :
    (some (sign "whsec"
        (jsInterp (recordGet (parseNamedParametersString "t=1,v1=zz") "t") ++ ".payload=" ++
          encodeURIComponent "[]")) ≠
      recordGet (parseNamedParametersString "t=1,v1=zz") "v1") ∧
    createGetCentraWebhookEvents
        ⟨⟨none, (fun _ _ => some "t=1,v1=zz"),
          fun _ => JsValue.object [("payload", JsValue.string "[]")]⟩, some "whsec"⟩ () =
      Except.ok (.errors ErrorKind.InvalidSignature.message) :=
  ⟨by decide,
    c6_invalid_signature none (fun _ _ => some "t=1,v1=zz")
      (fun _ => JsValue.object [("payload", JsValue.string "[]")]) "whsec" () "[]" "t=1,v1=zz"
      (fun _ h => nomatch h) (by decide) rfl rfl (by decide) (by decide)⟩

/-- C9 (implicit): when a (nonempty) secret is configured and the
`x-centra-signature` header is present but its parameters bind no `t`
(the parsed `t` reads as JS `undefined`), the ingestor does not fail
with a distinct missing-timestamp error: the expected digest is computed
over the literal string `"undefined.payload=" ++ encodeURIComponent
payload` — the absent parameter interpolating as the text `undefined` —
and the ingestor proceeds to the decode step when the header's `v1`
equals exactly that digest and returns the `InvalidSignature` error
otherwise. -/
theorem c9_undefined_timestamp {Req : Type} (m : Option (Req → Bool))
    (getH : Req → String → Option String) (getB : Req → JsValue)
    (s : String) (request : Req) (P hdr : String)
    (hm : ∀ q, m = some q → q request = true)
    (hs : s ≠ "")
    (hb : parseRawBody (getB request) = some P)
    (hh : getH request "x-centra-signature" = some hdr)
    (hhdr : hdr ≠ "")
    (ht : recordGet (parseNamedParametersString hdr) "t" = none) :
    createGetCentraWebhookEvents ⟨⟨m, getH, getB⟩, some s⟩ request =
      (if recordGet (parseNamedParametersString hdr) "v1" =
          some (sign s ("undefined.payload=" ++ encodeURIComponent P)) then
        decodeEvents P
      else Except.ok (.errors ErrorKind.InvalidSignature.message)) := by
  cases m with
  | none =>
    by_cases hv : recordGet (parseNamedParametersString hdr) "v1" =
        some (sign s ("undefined.payload=" ++ encodeURIComponent P))
    · simp [createGetCentraWebhookEvents, hb, hs, hh, hhdr, strTruthy, ht, jsInterp, hv,
        ErrorKind.message]
    · simp [createGetCentraWebhookEvents, hb, hs, hh, hhdr, strTruthy, ht, jsInterp,
        Ne.symm hv, hv, ErrorKind.message]
  | some q =>
    have hq := hm q rfl
    by_cases hv : recordGet (parseNamedParametersString hdr) "v1" =
        some (sign s ("undefined.payload=" ++ encodeURIComponent P))
    · simp [createGetCentraWebhookEvents, hq, hb, hs, hh, hhdr, strTruthy, ht, jsInterp, hv,
        ErrorKind.message]
    · simp [createGetCentraWebhookEvents, hq, hb, hs, hh, hhdr, strTruthy, ht, jsInterp,
        Ne.symm hv, hv, ErrorKind.message]

/-- Witness for C9 at a concrete header that carries only `v1`. -/
theorem c9_undefined_timestamp_witness :
    recordGet (parseNamedParametersString "v1=zz") "t" = none ∧
    createGetCentraWebhookEvents
        ⟨⟨none, (fun _ _ => some "v1=zz"),
          fun _ => JsValue.object [("payload", JsValue.string "[]")]⟩, some "whsec"⟩ () =
      (if recordGet (parseNamedParametersString "v1=zz") "v1" =
          some (sign "whsec" ("undefined.payload=" ++ encodeURIComponent "[]")) then
        decodeEvents "[]"
      else Except.ok (.errors ErrorKind.InvalidSignature.message)) :=
  ⟨by decide,
    c9_undefined_timestamp none (fun _ _ => some "v1=zz")
      (fun _ => JsValue.object [("payload", JsValue.string "[]")]) "whsec" () "[]" "v1=zz"
      (fun _ h => nomatch h) (by decide) rfl rfl (by decide) (by decide)⟩

/-- Auxiliary for C10: over any segment list, the record built by
`paramStep` reads key `k` as the value of the last segment whose key is
`k` (nonempty keys only). -/
theorem recordGet_filterMap_last (segs : List (List Char)) (k : String) (hk : k ≠ "") :
    recordGet (segs.filterMap pairBind) k =
      ((segs.filter (fun pair => String.mk (keyOf pair) = k)).getLast?).bind valOf := by
  induction segs using List.reverseRecOn with
  | nil => simp [recordGet]
  | append_singleton segs seg ih =>
    rw [List.filterMap_append, List.filter_append]
    by_cases hkey : keyOf seg = []
    · have hb : pairBind seg = none := by simp [pairBind, hkey]
      have hf : String.mk (keyOf seg) ≠ k := by
        rw [hkey]
        exact fun h => hk h.symm
      simp [hb, hf, ih]
    · have hsingle : List.filterMap pairBind [seg] = [(String.mk (keyOf seg), valOf seg)] := by
        simp [pairBind, hkey]
      by_cases hmatch : String.mk (keyOf seg) = k
      · have hfilter :
            List.filter (fun pair => String.mk (keyOf pair) = k) [seg] = [seg] := by
          simp [hmatch]
        rw [hsingle, hfilter, recordGet_append_single]
        simp [hmatch]
      · have hfilter :
            List.filter (fun pair => String.mk (keyOf pair) = k) [seg] = [] := by
          simp [hmatch]
        rw [hsingle, hfilter, recordGet_append_single]
        simp [hmatch, ih]

/-- C10 (implicit): when the signature header repeats a key, the parsed
record binds that key to the value of its last occurrence — for every
input and every nonempty key, the record read equals the value carried
by the final comma-split pair naming that key — and pairs whose key is
the empty string contribute no binding at all. -/
theorem c10_last_occurrence_wins (input : String) (k : String) (hk : k ≠ "") :
    recordGet (parseNamedParametersString input) k = lastPairValue input k ∧
    ∀ p ∈ parseNamedParametersString input, p.1 ≠ "" := by
  constructor
  · rw [parseNamed_eq_filterMap, lastPairValue]
    exact recordGet_filterMap_last (jsSplit ',' input.data) k hk
  · intro p hp
    rw [parseNamed_eq_filterMap] at hp
    rcases List.mem_filterMap.mp hp with ⟨seg, _, hbind⟩
    by_cases hkey : keyOf seg = []
    · simp [pairBind, hkey] at hbind
    · rcases p with ⟨pk, pv⟩
      simp [pairBind, hkey, Prod.mk.injEq] at hbind
      intro hEq
      exact hkey (congrArg String.data (hbind.1.trans hEq))

/-- Witness for C10: in `t=1,t=2` the key `t` reads as `2`, the value of
its final occurrence. -/
theorem c10_last_occurrence_wins_witness :
    ("t" : String) ≠ "" ∧
    recordGet (parseNamedParametersString "t=1,t=2") "t" = lastPairValue "t=1,t=2" "t" ∧
    recordGet (parseNamedParametersString "t=1,t=2") "t" = some "2" :=
  ⟨by decide, (c10_last_occurrence_wins "t=1,t=2" "t" (by decide)).1, by decide⟩

/-- Counterexample for C2 as stated: the source splits each pair on
every `=` and destructures the first two segments, so `k=a=b` binds `k`
to `a` (the text between the first and second `=`), not to `a=b`. -/
theorem c2_counterexample :
    recordGet (parseNamedParametersString "k=a=b") "k" = some "a" ∧
    recordGet (parseNamedParametersString "k=a=b") "k" ≠ some "a=b" := by
  constructor
  · decide
  · decide

/-- C2 (amended): the signature-header parameter parser splits the
header on `,` and each pair on `=`, binding the first segment (the key)
to the second (so `k=a=b` binds `k` to `a`); pairs lacking a key are
dropped (the `filterMap pairBind` characterization encodes both); and
appending extra `key=value` pairs whose keys are neither `t` nor `v1`
to the signature header does not affect the verification outcome. -/
theorem c2_parser_and_tolerance :
    (∀ input : String,
        parseNamedParametersString input = (jsSplit ',' input.data).filterMap pairBind) ∧
    recordGet (parseNamedParametersString "k=a=b") "k" = some "a" ∧
    (∀ (Req : Type) (m : Option (Req → Bool)) (getH1 getH2 : Req → String → Option String)
        (getB : Req → JsValue) (s : String) (request : Req) (P hdr extra : String),
      (∀ q, m = some q → q request = true) → s ≠ "" →
      parseRawBody (getB request) = some P →
      getH1 request "x-centra-signature" = some hdr → hdr ≠ "" →
      getH2 request "x-centra-signature" = some (hdr ++ "," ++ extra) →
      (∀ p ∈ parseNamedParametersString extra, p.1 ≠ "t" ∧ p.1 ≠ "v1") →
      createGetCentraWebhookEvents ⟨⟨m, getH1, getB⟩, some s⟩ request =
        createGetCentraWebhookEvents ⟨⟨m, getH2, getB⟩, some s⟩ request) := by
  refine ⟨parseNamed_eq_filterMap, by decide, ?_⟩
  intro Req m getH1 getH2 getB s request P hdr extra hm hs hb hh1 hhdr hh2 hextra
  have hdata : (hdr ++ "," ++ extra).data = hdr.data ++ ',' :: extra.data := by
    rcases hdr with ⟨l1⟩
    rcases extra with ⟨l2⟩
    show (l1 ++ [','] ) ++ l2 = l1 ++ ',' :: l2
    simp
  have hparse : parseNamedParametersString (hdr ++ "," ++ extra) =
      parseNamedParametersString hdr ++ parseNamedParametersString extra := by
    show (jsSplit ',' (hdr ++ "," ++ extra).data).foldl paramStep [] = _
    rw [hdata, jsSplit_append, List.foldl_append, foldl_paramStep_append]
    rfl
  have ht : recordGet
        (parseNamedParametersString hdr ++ parseNamedParametersString extra) "t" =
      recordGet (parseNamedParametersString hdr) "t" :=
    recordGet_append_not_mem _ _ _ (fun p hp => (hextra p hp).1)
  have hv : recordGet
        (parseNamedParametersString hdr ++ parseNamedParametersString extra) "v1" =
      recordGet (parseNamedParametersString hdr) "v1" :=
    recordGet_append_not_mem _ _ _ (fun p hp => (hextra p hp).2)
  have hcomb : hdr ++ "," ++ extra ≠ "" := by
    intro hEq
    have := congrArg String.data hEq
    rw [hdata] at this
    cases hdr.data <;> simp at this
  cases m with
  | none =>
    simp [createGetCentraWebhookEvents, hb, hs, hh1, hh2, strTruthy, hhdr, hcomb, hparse,
      ht, hv]
  | some q =>
    have hq := hm q rfl
    simp [createGetCentraWebhookEvents, hq, hb, hs, hh1, hh2, strTruthy, hhdr, hcomb, hparse,
      ht, hv]

/-- Witness for C2 at a concrete header with an appended unknown pair. -/
theorem c2_parser_and_tolerance_witness :
    (∀ p ∈ parseNamedParametersString "foo=bar", p.1 ≠ "t" ∧ p.1 ≠ "v1") ∧
    createGetCentraWebhookEvents
        ⟨⟨none, (fun _ _ => some "t=1,v1=zz"),
          fun _ => JsValue.object [("payload", JsValue.string "[]")]⟩, some "whsec"⟩ () =
      createGetCentraWebhookEvents
        ⟨⟨none, (fun _ _ => some ("t=1,v1=zz" ++ "," ++ "foo=bar")),
          fun _ => JsValue.object [("payload", JsValue.string "[]")]⟩, some "whsec"⟩ () :=
  ⟨by decide,
    c2_parser_and_tolerance.2.2 Unit none (fun _ _ => some "t=1,v1=zz")
      (fun _ _ => some ("t=1,v1=zz" ++ "," ++ "foo=bar"))
      (fun _ => JsValue.object [("payload", JsValue.string "[]")]) "whsec" () "[]"
      "t=1,v1=zz" "foo=bar"
      (fun _ h => nomatch h) (by decide) rfl rfl (by decide) rfl (by decide)⟩

/-- Auxiliary for C3: outcome analysis for a configuration without a
method predicate. -/
theorem c3_aux {Req : Type} (getH : Req → String → Option String) (getB : Req → JsValue)
    (secret : Option String) (request : Req) :
    (∃ msg, createGetCentraWebhookEvents ⟨⟨none, getH, getB⟩, secret⟩ request =
        Except.ok (.errors msg) ∧
        (msg = ErrorKind.InvalidRequestMethod.message ∨
          msg = ErrorKind.InvalidRequestBody.message ∨
          msg = ErrorKind.NoSignature.message ∨ msg = ErrorKind.InvalidSignature.message)) ∨
    (∃ v, createGetCentraWebhookEvents ⟨⟨none, getH, getB⟩, secret⟩ request =
        Except.ok (.events v)) ∨
    (∃ P e, parseRawBody (getB request) = some P ∧ jsonParse P = Except.error e ∧
        createGetCentraWebhookEvents ⟨⟨none, getH, getB⟩, secret⟩ request =
          Except.error e) := by
  obtain hb | ⟨P, hb⟩ : parseRawBody (getB request) = none ∨
      ∃ P, parseRawBody (getB request) = some P := by
    cases parseRawBody (getB request) with
    | none => exact Or.inl rfl
    | some P => exact Or.inr ⟨P, rfl⟩
  · refine Or.inl ⟨ErrorKind.InvalidRequestBody.message, ?_, Or.inr (Or.inl rfl)⟩
    simp [createGetCentraWebhookEvents, hb, ErrorKind.message]
  ·
    have hdec : createGetCentraWebhookEvents ⟨⟨none, getH, getB⟩, secret⟩ request =
        decodeEvents P →
        ((∃ msg, createGetCentraWebhookEvents ⟨⟨none, getH, getB⟩, secret⟩ request =
            Except.ok (.errors msg) ∧
            (msg = ErrorKind.InvalidRequestMethod.message ∨
              msg = ErrorKind.InvalidRequestBody.message ∨
              msg = ErrorKind.NoSignature.message ∨
              msg = ErrorKind.InvalidSignature.message)) ∨
        (∃ v, createGetCentraWebhookEvents ⟨⟨none, getH, getB⟩, secret⟩ request =
            Except.ok (.events v)) ∨
        (∃ P0 e, parseRawBody (getB request) = some P0 ∧ jsonParse P0 = Except.error e ∧
            createGetCentraWebhookEvents ⟨⟨none, getH, getB⟩, secret⟩ request =
              Except.error e)) := by
      intro hres
      cases hj : jsonParse P with
      | ok v =>
        refine Or.inr (Or.inl ⟨v, ?_⟩)
        rw [hres]
        simp [decodeEvents, hj, Except.map]
      | error e =>
        refine Or.inr (Or.inr ⟨P, e, hb, hj, ?_⟩)
        rw [hres]
        simp [decodeEvents, hj, Except.map]
    cases secret with
    | none => exact hdec (by simp [createGetCentraWebhookEvents, hb])
    | some s =>
      by_cases hs : s = ""
      · exact hdec (by simp [createGetCentraWebhookEvents, hb, hs])
      · cases hh : getH request "x-centra-signature" with
        | none =>
          refine Or.inl ⟨ErrorKind.NoSignature.message, ?_, Or.inr (Or.inr (Or.inl rfl))⟩
          simp [createGetCentraWebhookEvents, hb, hs, hh, strTruthy, ErrorKind.message]
        | some hdr =>
          by_cases hhdr : hdr = ""
          · refine Or.inl ⟨ErrorKind.NoSignature.message, ?_, Or.inr (Or.inr (Or.inl rfl))⟩
            simp [createGetCentraWebhookEvents, hb, hs, hh, hhdr, strTruthy,
              ErrorKind.message]
          · by_cases hsig :
              some (sign s
                  (jsInterp (recordGet (parseNamedParametersString hdr) "t") ++ ".payload=" ++
                    encodeURIComponent P)) =
                recordGet (parseNamedParametersString hdr) "v1"
            · exact hdec
                (by simp [createGetCentraWebhookEvents, hb, hs, hh, hhdr, strTruthy, hsig])
            · refine Or.inl
                ⟨ErrorKind.InvalidSignature.message, ?_, Or.inr (Or.inr (Or.inr rfl))⟩
              simp [createGetCentraWebhookEvents, hb, hs, hh, hhdr, strTruthy, hsig,
                ErrorKind.message]

/-- C3 (amended): the ingestor represents each of the four failure kinds
as data — a returned single-element error list whose message is drawn
from the closed taxonomy — and never raises them; the one exception the
source retains is the final `JSON.parse` of the payload, which is called
with no handler, so when every check passes and the payload string is
not valid JSON the returned promise rejects with the thrown
`SyntaxError` instead of resolving to a `VerificationResults` value. -/
theorem c3_failures_as_data {Req : Type} (config : CreateGetCentraWebhookEventsConfig Req)
    (request : Req) :
    (∃ msg, createGetCentraWebhookEvents config request = Except.ok (.errors msg) ∧
        (msg = ErrorKind.InvalidRequestMethod.message ∨
          msg = ErrorKind.InvalidRequestBody.message ∨
          msg = ErrorKind.NoSignature.message ∨ msg = ErrorKind.InvalidSignature.message)) ∨
    (∃ v, createGetCentraWebhookEvents config request = Except.ok (.events v)) ∨
    (∃ P e, parseRawBody (config.adapter.getRawBody request) = some P ∧
        jsonParse P = Except.error e ∧
        createGetCentraWebhookEvents config request = Except.error e) := by
  rcases config with ⟨⟨m, getH, getB⟩, secret⟩
  cases m with
  | none => exact c3_aux getH getB secret request
  | some p =>
    cases hp : p request with
    | false =>
      refine Or.inl ⟨ErrorKind.InvalidRequestMethod.message, ?_, Or.inl rfl⟩
      simp [createGetCentraWebhookEvents, hp, ErrorKind.message]
    | true =>
      have heq : createGetCentraWebhookEvents ⟨⟨some p, getH, getB⟩, secret⟩ request =
          createGetCentraWebhookEvents ⟨⟨none, getH, getB⟩, secret⟩ request := by
        simp [createGetCentraWebhookEvents, hp]
      rcases c3_aux getH getB secret request with ⟨msg, h1, h2⟩ | ⟨v, h1⟩ | ⟨P, e, h1, h2, h3⟩
      · exact Or.inl ⟨msg, heq.trans h1, h2⟩
      · exact Or.inr (Or.inl ⟨v, heq.trans h1⟩)
      · exact Or.inr (Or.inr ⟨P, e, h1, h2, heq.trans h3⟩)

/-- Counterexample for C3 as stated: a configuration with no secret and
a well-formed body whose `payload` string is not valid JSON makes the
source's final unguarded `JSON.parse` throw, so the promise rejects (the
`Except.error` case) instead of resolving to a `VerificationResults`
value. -/
theorem c3_counterexample :
    createGetCentraWebhookEvents
        ⟨⟨none, (fun _ _ => none),
          fun _ => JsValue.object [("payload", JsValue.string "nope")]⟩, none⟩ () =
      Except.error "SyntaxError: bad number in JSON" := rfl

/-- Character-list view of the constructed round-trip header. -/
theorem header_data (T H : String) :
    ("t=" ++ T ++ ",v1=" ++ H).data =
      ('t' :: '=' :: T.data) ++ ',' :: ('v' :: '1' :: '=' :: H.data) := by
  rcases T with ⟨lT⟩
  rcases H with ⟨lH⟩
  show ((['t', '='] ++ lT) ++ [',', 'v', '1', '=']) ++ lH = _
  simp

/-- The constructed round-trip header parses to exactly the `t` and `v1`
bindings when the timestamp and digest contain no separator characters. -/
theorem parseNamed_header (T H : String)
    (hT1 : ',' ∉ T.data) (hT2 : '=' ∉ T.data) (hH1 : ',' ∉ H.data) (hH2 : '=' ∉ H.data) :
    parseNamedParametersString ("t=" ++ T ++ ",v1=" ++ H) =
      [("t", some T), ("v1", some H)] := by
  have h2 := parseNamed_two_pairs T.data H.data hT1 hT2 hH1 hH2
  have hsame : parseNamedParametersString ("t=" ++ T ++ ",v1=" ++ H) =
      parseNamedParametersString ⟨('t' :: '=' :: T.data) ++ ',' :: ('v' :: '1' :: '=' :: H.data)⟩ := by
    rw [parseNamedParametersString, parseNamedParametersString, header_data]
  rw [hsame, h2]

/-- C1 (amended): for every secret `S`, timestamp string `T` containing
no `,` and no `=`, and payload string `P` whose JSON decoding succeeds,
the ingestor built with secret `S`, applied to a request that passes the
method check, whose raw body is an object with string field
`payload = P`, and whose `x-centra-signature` header is
`t=T,v1=sign(S, T ++ ".payload=" ++ encodeURIComponent(P))`, returns the
success pair carrying the decoded payload. The restriction on `T` is
forced: a timestamp containing `,` or `=` shifts the comma/equals
splitting of the header, so the parsed `t` differs from `T` and
verification fails (see the counterexample). -/
theorem c1_roundtrip {Req : Type} (m : Option (Req → Bool))
    (getH : Req → String → Option String) (getB : Req → JsValue)
    (request : Req) (S T P : String) (v : JsValue)
    (hm : ∀ q, m = some q → q request = true)
    (hT1 : ',' ∉ T.data) (hT2 : '=' ∉ T.data)
    (hb : parseRawBody (getB request) = some P)
    (hh : getH request "x-centra-signature" =
      some ("t=" ++ T ++ ",v1=" ++ sign S (T ++ ".payload=" ++ encodeURIComponent P)))
    (hj : jsonParse P = Except.ok v) :
    createGetCentraWebhookEvents ⟨⟨m, getH, getB⟩, some S⟩ request =
      Except.ok (.events v) := by
  have hHsep := sign_sep_not_mem S (T ++ ".payload=" ++ encodeURIComponent P)
  have hparse := parseNamed_header T (sign S (T ++ ".payload=" ++ encodeURIComponent P))
    hT1 hT2 hHsep.1 hHsep.2
  have hne : ("t=" ++ T ++ ",v1=" ++ sign S (T ++ ".payload=" ++ encodeURIComponent P)) ≠ "" := by
    intro hEq
    have hd := congrArg String.data hEq
    rw [header_data] at hd
    simp at hd
  have hT : recordGet [("t", some T),
      ("v1", some (sign S (T ++ ".payload=" ++ encodeURIComponent P)))] "t" = some T := by
    simp [recordGet, List.find?]
  have hV : recordGet [("t", some T),
      ("v1", some (sign S (T ++ ".payload=" ++ encodeURIComponent P)))] "v1" =
      some (sign S (T ++ ".payload=" ++ encodeURIComponent P)) := by
    simp [recordGet, List.find?]
  cases m with
  | none =>
    by_cases hS : S = ""
    · simp [createGetCentraWebhookEvents, hb, hS, decodeEvents, hj, Except.map]
    · simp [createGetCentraWebhookEvents, hb, hS, hh, strTruthy, hne, hparse, hT, hV,
        jsInterp, decodeEvents, hj, Except.map]
  | some q =>
    have hq := hm q rfl
    by_cases hS : S = ""
    · simp [createGetCentraWebhookEvents, hq, hb, hS, decodeEvents, hj, Except.map]
    · simp [createGetCentraWebhookEvents, hq, hb, hS, hh, strTruthy, hne, hparse, hT, hV,
        jsInterp, decodeEvents, hj, Except.map]

/-- Witness for C1 at a concrete secret, timestamp and payload. -/
theorem c1_roundtrip_witness :
    (',' ∉ ("12345" : String).data ∧ '=' ∉ ("12345" : String).data) ∧
    jsonParse "[]" = Except.ok (JsValue.array []) ∧
    createGetCentraWebhookEvents
        ⟨⟨none,
          (fun _ _ =>
            some ("t=" ++ "12345" ++ ",v1=" ++
              sign "whsec" ("12345" ++ ".payload=" ++ encodeURIComponent "[]"))),
          fun _ => JsValue.object [("payload", JsValue.string "[]")]⟩, some "whsec"⟩ () =
      Except.ok (.events (JsValue.array [])) :=
  ⟨⟨by decide, by decide⟩, rfl,
    c1_roundtrip none
      (fun _ _ =>
        some ("t=" ++ "12345" ++ ",v1=" ++
          sign "whsec" ("12345" ++ ".payload=" ++ encodeURIComponent "[]")))
      (fun _ => JsValue.object [("payload", JsValue.string "[]")]) ()
      "whsec" "12345" "[]" (JsValue.array [])
      (fun _ h => nomatch h) (by decide) (by decide) rfl rfl rfl⟩

/-- Counterexample for C1 as stated (over arbitrary timestamp strings):
with secret `s`, timestamp `T = "t=x"` and payload `"[]"` (valid JSON),
the header built exactly per the claim as `t=T,v1=h` parses its `t`
parameter as `t` (the text between the first and second `=`), not as
`t=x`, so the recomputed digest differs from `h` and the ingestor
returns the `InvalidSignature` error instead of the promised success
pair. -/
theorem c1_counterexample :
    jsonParse "[]" = Except.ok (JsValue.array []) ∧
    createGetCentraWebhookEvents
        ⟨⟨none,
          (fun _ _ =>
            some ("t=" ++ "t=x" ++ ",v1=" ++
              sign "s" ("t=x" ++ ".payload=" ++ encodeURIComponent "[]"))),
          fun _ => JsValue.object [("payload", JsValue.string "[]")]⟩, some "s"⟩ () =
      Except.ok (.errors ErrorKind.InvalidSignature.message) :=
  ⟨rfl, rfl⟩

/-! ## Test vectors pinning the primitive models to their standards -/

/-- FIPS 180-4 test vector: SHA-256 of the empty message. -/
theorem sha256_empty_vector :
    String.mk (bytesToHex (sha256 [])) =
      "e3b0c44298fc1c149afbf4c8996fb92427ae41e4649b934ca495991b7852b855" := by decide

/-- FIPS 180-4 test vector: SHA-256 of the three-byte message `abc`. -/
theorem sha256_abc_vector :
    String.mk (bytesToHex (sha256 (utf8 "abc"))) =
      "ba7816bf8f01cfea414140de5dae2223b00361a396177a9cb410ff61f20015ad" := by decide

/-- RFC 2104-style test vector for HMAC-SHA256 through the source's
`sign`. -/
theorem sign_vector :
    sign "key" "The quick brown fox jumps over the lazy dog" =
      "f7bc83f430538424b13298e6aa6fb143ef4d59a14946175997479dbc2d1a3cd8" := by decide

/-- ECMA-262 behaviour of the `encodeURIComponent` model on a mixed
ASCII and non-ASCII input. -/
theorem encodeURIComponent_vector :
    encodeURIComponent "a b/ä!~" = "a%20b%2F%C3%A4!~" := by decide
